import Mathlib

/-!
Verification development for the ai-job-reviewer service.

This file gives a shallow embedding of the core of the service — the PDF text
cleaning used for reference documents, the RAG retrieval operations, the
LLM-gateway stages, the five-stage evaluation pipeline of
`EvaluationService.evaluateCandidate`, the persistence wrapper around it
(job status writes and the result row), the BullMQ worker processor with its
error classification and retry loop, the `GET /result/:jobId` route, and the
reference-corpus ingestion — together with theorems settling the stated
properties of that code.

External collaborators (the ChromaDB vector index's similarity ranking, the
Gemini model, file extraction outcomes, and transient database write failures)
are modelled as explicit parameters/oracles; everything the repository's own
code does is translated directly from the TypeScript source.
-/

namespace AIJobReviewer

/-! ## PDF text cleaning (`cleanPdfText` in src/unnamed/part_006)

`cleanPdfText` is
`text.replace(/\s+(?=\S)/g, "").replace(/\s+/g, " ").trim()`.
We model the JavaScript regex class `\s` by `jsWhitespace` and each of the
three substitutions by a recursive function on the character list. -/

/-- Character class of the JavaScript regex `\s` (whitespace,
no-break/Unicode spaces, line separators, BOM), by code point. -/
def jsWhitespace (c : Char) : Bool :=
  let n := c.toNat
  n = 0x20 || n = 0x09 || n = 0x0a || n = 0x0d || n = 0x0b || n = 0x0c ||
  n = 0xa0 || n = 0x1680 || (0x2000 <= n && n <= 0x200a) ||
  n = 0x2028 || n = 0x2029 || n = 0x202f || n = 0x205f ||
  n = 0x3000 || n = 0xfeff

/-- First substitution `.replace(/\s+(?=\S)/g, "")`: a whitespace character is
deleted exactly when some non-whitespace character occurs later in the string
(a greedy `\s+` run followed by the lookahead `(?=\S)`); the trailing
whitespace run, if any, is kept. -/
def stripWsBeforeNonWs : List Char → List Char
  | [] => []
  | c :: cs =>
    if jsWhitespace c && cs.any (fun d => !jsWhitespace d) then
      stripWsBeforeNonWs cs
    else
      c :: stripWsBeforeNonWs cs

/-- Helper for the second substitution: the flag records whether we are inside
a whitespace run whose first character was already emitted as `' '`. -/
def collapseWsAux : Bool → List Char → List Char
  | _, [] => []
  | prev, c :: cs =>
    if jsWhitespace c then
      if prev then collapseWsAux true cs else ' ' :: collapseWsAux true cs
    else
      c :: collapseWsAux false cs

/-- Second substitution `.replace(/\s+/g, " ")`: every maximal whitespace run
becomes a single space. -/
def collapseWs (l : List Char) : List Char :=
  collapseWsAux false l

/-- JavaScript `String.prototype.trim`: drop leading and trailing whitespace. -/
def trimChars (l : List Char) : List Char :=
  ((l.dropWhile jsWhitespace).reverse.dropWhile jsWhitespace).reverse

/-- JavaScript `query.trim()` on a whole string, used by the empty-input
checks in the RAG service. -/
def jsTrim (s : String) : String :=
  ⟨trimChars s.data⟩

/-- The `cleanPdfText` function of src/unnamed/part_006 (applied to every
reference document returned by `RAGService.searchJobDocument`). -/
def cleanPdfText (s : String) : String :=
  ⟨trimChars (collapseWs (stripWsBeforeNonWs s.data))⟩

/-- JavaScript `String.prototype.includes` (substring test), used by the
worker's error classification and by ingestion's filename-kind detection. -/
def containsSub (needle haystack : String) : Bool :=
  decide ( List.IsInfix needle.data haystack.data)

/-- The maximal trailing whitespace run of a character list (the part of the
input that the first substitution of `cleanPdfText` keeps among the
whitespace). -/
def wsSuffix : List Char → List Char
  | [] => []
  | c :: cs =>
    if jsWhitespace c && !cs.any (fun d => !jsWhitespace d) then c :: cs
    else wsSuffix cs

/-! ## RAG service (src/src/services/rag.services.ts)

The ChromaDB collection is a list of stored documents with metadata; the
similarity ranking of `collection.query` is an external oracle
`storeQuery : String → Except String (List QueryMeta)` (an `.error` result
models store unavailability; the metadata list is `results.metadatas?.[0]`
for `nResults: 1`). `collection.get` with a `jobTitle` `$eq` filter is exact
metadata filtering over the stored documents and is modelled directly. -/

/-- A document held in the ChromaDB collection, with the metadata written at
ingestion time. -/
structure StoredDoc where
  id : String
  text : String
  jobTitle : String
  documentType : String
  filename : String
deriving DecidableEq

/-- The ChromaDB collection state. -/
structure Collection where
  docs : List StoredDoc
deriving DecidableEq

/-- Metadata record returned by the similarity query; `jobTitle` is `none`
when the metadata lacks a string `jobTitle` field (the
`typeof relevantJob !== "string"` check in the source). -/
structure QueryMeta where
  jobTitle : Option String
deriving DecidableEq

/-- The `RAGService.searchRelevantJob` operation. Throws on an empty/blank
query (`!query || query.trim().length === 0`); wraps and rethrows store
errors; returns `none` (not-found) when the query yields zero matches or the
top match carries no string job title. -/
def searchRelevantJob (storeQuery : String → Except String (List QueryMeta))
    (query : String) : Except String (Option String) :=
  if jsTrim query = "" then
    .error "Search query cannot be empty"
  else
    match storeQuery query with
    | .error e => .error ("Failed to search relevant job: " ++ e)
    | .ok [] => .ok none
    | .ok (m :: _) =>
      match m.jobTitle with
      | none => .ok none
      | some t => .ok (some t)

/-- The `RAGService.searchJobDocument` operation: exact metadata lookup of a
`(jobTitle, documentType)` pair (`collection.get` with a `$eq` filter followed
by `findIndex` on the document type). On a hit it returns the cleaned text;
when the title has no document of the requested kind it throws an error naming
that kind. -/
def searchJobDocument (col : Collection) (jobTitle documentType : String) :
    Except String String :=
  if jsTrim jobTitle = "" then
    .error "Job title cannot be empty"
  else
    match (col.docs.filter (fun d => d.jobTitle == jobTitle)).find?
        (fun d => d.documentType == documentType) with
    | none => .error ("No " ++ documentType ++ " found for job title: " ++ jobTitle)
    | some d => .ok (cleanPdfText d.text)

/-! ## LLM gateway stages (src/src/services/llm.services.ts)

`LLMService.evaluateProjectReport` sends the declared
`projectEvaluationSchema` to the model API as generation config, then checks
only that the response has text and runs `JSON.parse(response.text)` with an
unchecked type cast. We model the response as
`Option (Option ProjEvalJson)`: `none` is a response without text
(`!response?.text`), `some none` is text that is not valid JSON
(`JSON.parse` throws), and `some (some j)` is text whose parse yields the
object `j`, whose fields may be absent or out of range — the cast performs no
runtime check. -/

/-- The runtime shape of `JSON.parse(response.text)` for the project
evaluation stage: each declared field may be missing. -/
structure ProjEvalJson where
  projectScore : Option Rat
  projectFeedback : Option String
deriving DecidableEq

/-- The body of `LLMService.evaluateProjectReport` after the model call. -/
def evaluateProjectReport : Option (Option ProjEvalJson) → Except String ProjEvalJson
  | none => .error "Failed to evaluate project case study - no response from LLM"
  | some none => .error "Unexpected token in JSON"
  | some (some j) => .ok j

/-- The declared `projectEvaluationSchema` of src/unnamed/part_002:
`projectScore` is a required number with `minimum: 1, maximum: 5` and
`projectFeedback` is a required string. -/
def projectEvaluationSchemaCheck (j : ProjEvalJson) : Bool :=
  (match j.projectScore with
   | some s => decide (1 ≤ s) && decide (s ≤ 5)
   | none => false)
  && j.projectFeedback.isSome

/-! ## Evaluation orchestrator (src/src/services/evaluation.services.ts)

The five-stage pipeline of `evaluateCandidate` (steps 1–5, before any
persistence). The Gemini model is an oracle `LLMOracle` of the five request
shapes; the pipeline also counts how many model-gateway calls were issued.
Candidate-document loading (a database read plus PDF extraction) is an
external outcome `candidateDocs`. The three reference-document fetches of
`retrieveJobDocuments` run under `Promise.all` in the source; they are
independent reads and are modelled in array order. -/

/-- Validated CV evaluation value used by the orchestrator. -/
structure CvEval where
  cvMatchRate : Rat
  cvFeedback : String
deriving DecidableEq

/-- Validated project evaluation value used by the orchestrator. -/
structure ProjEval where
  projectScore : Rat
  projectFeedback : String
deriving DecidableEq

/-- The `EvaluationResults` record assembled by `evaluateCandidate`. -/
structure EvaluationResults where
  parsedCV : String
  cvEvaluation : CvEval
  parsedProject : String
  projectEvaluation : ProjEval
  finalSummary : String
  jobTitle : String
deriving DecidableEq

/-- Oracle for the five model-gateway request shapes of `LLMService`. -/
structure LLMOracle where
  parseCV : String → Except String String
  evaluateCV : String → String → String → Except String CvEval
  parseProjectReport : String → Except String String
  evaluateProjectReport : String → String → String → Except String ProjEval
  generateFinalSummary : Rat → String → Rat → String → String → Except String String

/-- Step 1 of `evaluateCandidate`: `retrieveJobDocuments`. Resolves the job
title semantically, then fetches the job description, scoring rubric and case
study brief for the resolved title by exact metadata lookup. -/
def retrieveJobDocuments (storeQuery : String → Except String (List QueryMeta))
    (col : Collection) (jobTitle : String) :
    Except String (String × String × String × String) :=
  match searchRelevantJob storeQuery jobTitle with
  | .error e => .error e
  | .ok none => .error ("No relevant job found for title: " ++ jobTitle)
  | .ok (some relevantJob) =>
    match searchJobDocument col relevantJob "job_description" with
    | .error e => .error e
    | .ok jobDescription =>
      match searchJobDocument col relevantJob "scoring_rubric" with
      | .error e => .error e
      | .ok scoringRubric =>
        match searchJobDocument col relevantJob "case_study_brief" with
        | .error e => .error e
        | .ok caseStudyBrief =>
          .ok (jobDescription, scoringRubric, caseStudyBrief, relevantJob)

/-- Steps `processCV` (parse then evaluate the CV); the `Nat` component counts
model-gateway calls issued. Failures are wrapped with the stage context, as in
the source. -/
def processCV (llm : LLMOracle) (cvText jobDescription scoringRubric : String) :
    Nat × Except String (String × CvEval) :=
  match llm.parseCV cvText with
  | .error e => (1, .error ("Failed to process CV: " ++ e))
  | .ok parsedCV =>
    match llm.evaluateCV cvText scoringRubric jobDescription with
    | .error e => (2, .error ("Failed to process CV: " ++ e))
    | .ok cvEvaluation => (2, .ok (parsedCV, cvEvaluation))

/-- Steps `processProject` (parse then evaluate the project report). -/
def processProject (llm : LLMOracle) (projectText caseStudyBrief scoringRubric : String) :
    Nat × Except String (String × ProjEval) :=
  match llm.parseProjectReport projectText with
  | .error e => (1, .error ("Failed to process project: " ++ e))
  | .ok parsedProject =>
    match llm.evaluateProjectReport projectText scoringRubric caseStudyBrief with
    | .error e => (2, .error ("Failed to process project: " ++ e))
    | .ok projectEvaluation => (2, .ok (parsedProject, projectEvaluation))

/-- The five-stage pipeline of `evaluateCandidate` (steps 1–5), without the
status/result persistence that wraps it. Returns the number of model-gateway
calls issued together with the outcome. -/
def runPipeline (storeQuery : String → Except String (List QueryMeta))
    (col : Collection) (llm : LLMOracle)
    (candidateDocs : Except String (String × String)) (jobTitle : String) :
    Nat × Except String EvaluationResults :=
  match retrieveJobDocuments storeQuery col jobTitle with
  | .error e => (0, .error e)
  | .ok (jobDescription, scoringRubric, caseStudyBrief, _) =>
    match candidateDocs with
    | .error e => (0, .error e)
    | .ok (cvText, projectText) =>
      match processCV llm cvText jobDescription scoringRubric with
      | (n, .error e) => (n, .error e)
      | (n, .ok (parsedCV, cvEvaluation)) =>
        match processProject llm projectText caseStudyBrief scoringRubric with
        | (m, .error e) => (n + m, .error e)
        | (m, .ok (parsedProject, projectEvaluation)) =>
          match llm.generateFinalSummary cvEvaluation.cvMatchRate
              cvEvaluation.cvFeedback projectEvaluation.projectScore
              projectEvaluation.projectFeedback jobTitle with
          | .error e => (n + m + 1, .error e)
          | .ok finalSummary =>
            (n + m + 1,
             .ok ⟨parsedCV, cvEvaluation, parsedProject, projectEvaluation,
                  finalSummary, jobTitle⟩)

/-! ## Job store and persistence wrapper (src/src/services/evaluation.services.ts)

State of the relational store for one evaluation job: the job row (with
status and error message), the optional `EvaluationResult` row, and a log of
the status values successfully written, in order. `updateJobStatus` swallows
every write error (it logs and returns, both when the row no longer exists
and on any other failure); `saveEvaluationResults` rethrows write failures.
Whether an individual write physically succeeds is environment input. -/

/-- The `JobStatus` enum of the Prisma schema. -/
inductive JobStatus where
  | QUEUED
  | PROCESSING
  | COMPLETED
  | FAILED
deriving DecidableEq

/-- The mutable part of one `EvaluationJob` row. -/
structure JobRow where
  status : JobStatus
  errorMessage : Option String
deriving DecidableEq

/-- The `EvaluationResult` row written by `saveEvaluationResults`. -/
structure ResultRow where
  cvMatchRate : Rat
  cvFeedback : String
  projectScore : Rat
  projectFeedback : String
  overallSummary : String
  parsedCV : String
  parsedProject : String
  rawJobTitle : String
deriving DecidableEq

/-- Database state for one job: job row (`none` when deleted out-of-band),
optional result row, and the ordered log of statuses successfully written. -/
structure Db where
  job : Option JobRow
  result : Option ResultRow
  log : List JobStatus
deriving DecidableEq

/-- The `errorMessage || null` coercion in `updateJobStatus`. -/
def normMsg : Option String → Option String
  | none => none
  | some m => if m = "" then none else some m

/-- The `EvaluationService.updateJobStatus` helper. It never throws: a missing
row is a logged no-op, and any other write failure (`writeOk = false`) is
logged and swallowed. A successful write replaces status and error message and
is appended to the log. -/
def updateJobStatus (writeOk : Bool) (status : JobStatus) (msg : Option String)
    (db : Db) : Db :=
  match db.job with
  | none => db
  | some _ =>
    if writeOk then
      { db with job := some ⟨status, normMsg msg⟩, log := db.log ++ [status] }
    else
      db

/-- Projection of the pipeline results onto the `EvaluationResult` row, as in
`saveEvaluationResults` (`rawData` keeps the parsed artifacts and title). -/
def toResultRow (r : EvaluationResults) : ResultRow :=
  ⟨r.cvEvaluation.cvMatchRate, r.cvEvaluation.cvFeedback,
   r.projectEvaluation.projectScore, r.projectEvaluation.projectFeedback,
   r.finalSummary, r.parsedCV, r.parsedProject, r.jobTitle⟩

/-- The `saveEvaluationResults` helper: `prisma.evaluationResult.create`. It
fails (and the failure is rethrown, wrapped) when the physical write fails or
a result row already exists for the job (unique one-to-one relation). -/
def saveEvaluationResults (writeOk : Bool) (r : EvaluationResults) (db : Db) :
    Except String Db :=
  if writeOk && db.result.isNone then
    .ok { db with result := some (toResultRow r) }
  else
    .error "Failed to save results: database error"

/-- Environment of one worker attempt: the outcome of stages 1–5 plus
candidate-document loading (`pipeline`, the value `runPipeline` and
`loadCandidateDocuments` would produce for this attempt), and whether each of
the three database writes issued by `evaluateCandidate` physically succeeds. -/
structure AttemptEnv where
  pipeline : Except String EvaluationResults
  procWriteOk : Bool
  saveResultOk : Bool
  finalWriteOk : Bool

/-- One invocation of `EvaluationService.evaluateCandidate` (one worker
attempt): write `PROCESSING`, run the pipeline; on success save the result row
and then write `COMPLETED` (two separate writes, no transaction); on any error
write `FAILED` with the raw error message and rethrow. -/
def evaluateCandidateAttempt (env : AttemptEnv) (db : Db) :
    Db × Except String EvaluationResults :=
  let db1 := updateJobStatus env.procWriteOk JobStatus.PROCESSING none db
  match env.pipeline with
  | .error msg =>
    (updateJobStatus env.finalWriteOk JobStatus.FAILED (some msg) db1, .error msg)
  | .ok res =>
    match saveEvaluationResults env.saveResultOk res db1 with
    | .error m =>
      (updateJobStatus env.finalWriteOk JobStatus.FAILED (some m) db1, .error m)
    | .ok db2 =>
      (updateJobStatus env.finalWriteOk JobStatus.COMPLETED none db2, .ok res)

/-- The worker's error classification (catch branch of the BullMQ processor in
src/src/jobs/evaluation-worker.ts): substring-match the raw message and throw
a user-facing sentence as the queue-level failure reason. -/
def classifyError (msg : String) : String :=
  if containsSub "timeout" msg then
    "Evaluation timed out. Please try again."
  else if containsSub "quota" msg || containsSub "rate limit" msg then
    "API rate limit reached. Please try again later."
  else if containsSub "overloaded" msg then
    "Model is currently overloaded. Please try again later."
  else if containsSub "not found" msg then
    "Document or job configuration not found: " ++ msg
  else if containsSub "empty" msg || containsSub "too short" msg then
    "Invalid document: " ++ msg
  else
    msg

/-- One run of the worker processor: invoke `evaluateCandidate`; on failure
classify the raw error and throw the classified sentence (which becomes the
queue's failure reason — it is not written to the job store). -/
def workerProcess (env : AttemptEnv) (db : Db) :
    Db × Except String EvaluationResults :=
  match evaluateCandidateAttempt env db with
  | (db2, .ok res) => (db2, .ok res)
  | (db2, .error msg) => (db2, .error (classifyError msg))

/-- The queue's configured attempt count (`attempts: 3` at enqueue time in the
evaluate route, src/unnamed/part_007; `ATTEMPTS_RETRY` in
src/src/api/routes/evaluate.routes.ts). -/
def ATTEMPTS_RETRY : Nat := 3

/-- BullMQ driving the worker: run attempts in order until one succeeds or the
environment list (of length `attempts`) is exhausted; each retry re-invokes
the processor on the database state left by the previous attempt. -/
def runJob : List AttemptEnv → Db → Db
  | [], db => db
  | env :: rest, db =>
    match evaluateCandidateAttempt env db with
    | (db2, .ok _) => db2
    | (db2, .error _) => runJob rest db2

/-- Number of attempts the queue executes for a given environment list: it
stops after the first attempt whose pipeline succeeds (with all writes
succeeding, an attempt succeeds exactly when its pipeline does). -/
def attemptsUsed : List AttemptEnv → Nat
  | [] => 0
  | env :: rest =>
    match env.pipeline with
    | .ok _ => 1
    | .error _ => 1 + attemptsUsed rest

/-- All three database writes of every attempt in the list succeed. -/
def allWritesOk (envs : List AttemptEnv) : Bool :=
  envs.all (fun e => e.procWriteOk && e.saveResultOk && e.finalWriteOk)

/-- The attempt's pipeline fails. -/
def pipelineFails (e : AttemptEnv) : Bool :=
  match e.pipeline with
  | .ok _ => false
  | .error _ => true

/-- Initial database state of a freshly submitted job: a `QUEUED` row, no
result, nothing written yet. -/
def db0 : Db :=
  { job := some ⟨JobStatus.QUEUED, none⟩, result := none, log := [] }

/-- Number of writes of a given status in a write log. -/
def countStatus (s : JobStatus) : List JobStatus → Nat
  | [] => 0
  | x :: xs => (if x = s then 1 else 0) + countStatus s xs

/-! ## Result retrieval route (`GET /result/:jobId`, src/unnamed/part_010)

The route looks the job up with its result row and responds with exactly the
keys `jobId`, `status` and `result` (the payload when a result row exists,
otherwise `null`); the stored `errorMessage` is not part of the response. -/

/-- A stored job as the route reads it (`findUnique` with `result` included). -/
structure StoredJob where
  id : String
  status : JobStatus
  errorMessage : Option String
  result : Option ResultRow
deriving DecidableEq

/-- The JSON result payload of the route. -/
structure ResultPayload where
  cv_match_rate : Rat
  cv_feedback : String
  project_score : Rat
  project_feedback : String
  overall_summary : String
deriving DecidableEq

/-- The JSON body of a successful response: exactly the keys the route sends. -/
structure ResultResponse where
  jobId : String
  status : JobStatus
  result : Option ResultPayload
deriving DecidableEq

/-- Outcome of the route: 404 or a JSON body. -/
inductive RouteOutcome where
  | notFound
  | ok (body : ResultResponse)
deriving DecidableEq

/-- Projection of a result row onto the response payload. -/
def toResultPayload (r : ResultRow) : ResultPayload :=
  ⟨r.cvMatchRate, r.cvFeedback, r.projectScore, r.projectFeedback,
   r.overallSummary⟩

/-- The `GET /result/:jobId` handler over a job-store lookup function. -/
def getResultRoute (findJob : String → Option StoredJob) (jobId : String) :
    RouteOutcome :=
  match findJob jobId with
  | none => .notFound
  | some job => .ok ⟨job.id, job.status, job.result.map toResultPayload⟩

/-- Replace a stored job's error message (used to state that the route's
response does not depend on it). -/
def withErrorMessage (j : StoredJob) (em : Option String) : StoredJob :=
  { j with errorMessage := em }

/-! ## Reference-corpus ingestion (src/src/services/rag.services.ts)

`ingestAllDocuments` skips the whole run when the collection already holds any
document; otherwise it scans the first-level directories of the document tree
and ingests each `.pdf` file. `ingestDocument` catches every per-file failure
(missing file, empty file, failed or empty extraction, unknown kind, duplicate
id on `collection.add`), logs it and skips the file. -/

/-- A source file of the document tree: whether it exists on disk, its size,
and the outcome of `extractTextFromPDF` on it (`.error` = extraction throws,
the unreadable case). -/
structure SrcFile where
  filename : String
  present : Bool
  size : Nat
  extractedText : Except String String

/-- A first-level entry of the documents directory; non-directories are
skipped by the `stats.isDirectory()` check. -/
inductive FsEntry where
  | dir (name : String) (files : List SrcFile)
  | file (name : String)

/-- Separator class of `normalizeJobTitle`'s regex `[\s_-]+`. -/
def normSepChar (c : Char) : Bool :=
  jsWhitespace c || c = '_' || c = '-'

/-- Helper for `normalizeJobTitle`: collapse separator runs to one `'_'`. -/
def normalizeAux : Bool → List Char → List Char
  | _, [] => []
  | prev, c :: cs =>
    if normSepChar c then
      if prev then normalizeAux true cs else '_' :: normalizeAux true cs
    else
      Char.toLower c :: normalizeAux false cs

/-- `RAGService.normalizeJobTitle`: lowercase, then replace every run of
whitespace, underscores and hyphens by a single underscore. -/
def normalizeJobTitle (s : String) : String :=
  ⟨normalizeAux false s.data⟩

/-- Filename-based document kind detection of `ingestDocument`, in source
order. -/
def detectDocumentType (filename : String) : Option String :=
  if containsSub "job_description" filename then some "job_description"
  else if containsSub "case_study_brief" filename then some "case_study_brief"
  else if containsSub "scoring_rubric" filename then some "scoring_rubric"
  else none

/-- The fallible body of `ingestDocument` before the `collection.add` call:
existence and size checks, text extraction, emptiness check, kind detection,
then the document record with its deterministic id and normalized metadata. -/
def ingestDocumentCore (jobTitle : String) (f : SrcFile) : Except String StoredDoc :=
  if f.present = false then
    .error ("File not found: " ++ f.filename)
  else if f.size = 0 then
    .error ("File is empty: " ++ f.filename)
  else
    match f.extractedText with
    | .error e => .error e
    | .ok text =>
      if jsTrim text = "" then
        .error ("Failed to extract text from PDF: " ++ f.filename)
      else
        match detectDocumentType f.filename with
        | none => .error ("Unknown document type for file: " ++ f.filename)
        | some documentType =>
          .ok { id := normalizeJobTitle jobTitle ++ "_" ++ documentType,
                text := text,
                jobTitle := normalizeJobTitle jobTitle,
                documentType := documentType,
                filename := f.filename }

/-- `collection.add`: fails on a duplicate id, otherwise appends. -/
def collectionAdd (col : Collection) (d : StoredDoc) : Except String Collection :=
  if col.docs.any (fun e => e.id == d.id) then
    .error ("Document id already exists: " ++ d.id)
  else
    .ok ⟨col.docs ++ [d]⟩

/-- `ingestDocument` with its enclosing try/catch: any failure is logged and
the file skipped (collection unchanged); nothing is rethrown. -/
def ingestDocument (col : Collection) (jobTitle : String) (f : SrcFile) : Collection :=
  match ingestDocumentCore jobTitle f with
  | .error _ => col
  | .ok d =>
    match collectionAdd col d with
    | .error _ => col
    | .ok col2 => col2

/-- The `file.endsWith(".pdf")` filter of `ingestJobDocuments`, at the
character level. -/
def endsWithPdf (s : String) : Bool :=
  decide ( List.IsSuffix (String.data ".pdf") s.data)

/-- `ingestJobDocuments`: ingest every `.pdf` file of one job directory. -/
def ingestJobDocuments (col : Collection) (jobTitle : String)
    (files : List SrcFile) : Collection :=
  (files.filter (fun f => endsWithPdf f.filename)).foldl
    (fun c f => ingestDocument c jobTitle f) col

/-- The `hasDocuments` guard: `collection.count() > 0`. -/
def hasDocuments (col : Collection) : Bool :=
  decide (0 < col.docs.length)

/-- `ingestAllDocuments`: skipped entirely when the store already holds any
document; otherwise every first-level directory is ingested as one job
title. -/
def ingestAllDocuments (col : Collection) (tree : List FsEntry) : Collection :=
  if hasDocuments col then
    col
  else
    tree.foldl
      (fun c entry =>
        match entry with
        | .dir name files => ingestJobDocuments c name files
        | .file _ => c)
      col

/-! ## Concrete fixtures used by witnesses and counterexamples -/

/-- Decidable equality on `Except`, so concrete executions can be settled by
`decide`. -/
instance {ε α : Type} [DecidableEq ε] [DecidableEq α] : DecidableEq (Except ε α) :=
  fun x y =>
    match x, y with
    | .ok a, .ok b =>
      if h : a = b then .isTrue (by rw [h])
      else .isFalse (fun hc => h (Except.ok.inj hc))
    | .error a, .error b =>
      if h : a = b then .isTrue (by rw [h])
      else .isFalse (fun hc => h (Except.error.inj hc))
    | .ok _, .error _ => .isFalse (fun hc => Except.noConfusion hc)
    | .error _, .ok _ => .isFalse (fun hc => Except.noConfusion hc)

/-- A concrete successful pipeline outcome. -/
def sampleResults : EvaluationResults :=
  { parsedCV := "parsed cv",
    cvEvaluation := ⟨(1 : Rat), "solid cv"⟩,
    parsedProject := "parsed project",
    projectEvaluation := ⟨4, "good project"⟩,
    finalSummary := "hire",
    jobTitle := "Backend Engineer" }

/-- Attempt in which the pipeline and all three database writes succeed. -/
def envSuccess : AttemptEnv :=
  { pipeline := .ok sampleResults,
    procWriteOk := true, saveResultOk := true, finalWriteOk := true }

/-- Attempt whose pipeline fails with a provider-overload error; all writes
succeed. -/
def envFailOverload : AttemptEnv :=
  { pipeline := .error "The model is overloaded. Please try again later.",
    procWriteOk := true, saveResultOk := true, finalWriteOk := true }

/-- Attempt whose pipeline fails with a timeout error; all writes succeed. -/
def envFailTimeout : AttemptEnv :=
  { pipeline := .error "Request timeout after 30000 ms",
    procWriteOk := true, saveResultOk := true, finalWriteOk := true }

/-- Attempt in which the pipeline and the result write succeed but the final
`COMPLETED` status update fails (and is swallowed by `updateJobStatus`). -/
def envNoFinalWrite : AttemptEnv :=
  { pipeline := .ok sampleResults,
    procWriteOk := true, saveResultOk := true, finalWriteOk := false }

/-- A similarity oracle that finds no match for any query. -/
def emptyOracle : String → Except String (List QueryMeta) :=
  fun _ => .ok []

/-- A similarity oracle that always resolves to the backend job title. -/
def backendOracle : String → Except String (List QueryMeta) :=
  fun _ => .ok [⟨some "backend_engineer_2025"⟩]

/-- The stored job description of the backend job. -/
def jdDoc : StoredDoc :=
  ⟨"backend_engineer_2025_job_description", "the job description",
   "backend_engineer_2025", "job_description", "job_description.pdf"⟩

/-- The stored case study brief of the backend job. -/
def csbDoc : StoredDoc :=
  ⟨"backend_engineer_2025_case_study_brief", "the case study brief",
   "backend_engineer_2025", "case_study_brief", "case_study_brief.pdf"⟩

/-- A collection holding the job description and case study brief for the
backend job, but no scoring rubric. -/
def backendNoRubric : Collection :=
  ⟨[jdDoc, csbDoc]⟩

/-- A readable scoring-rubric source file. -/
def goodPdf : SrcFile :=
  ⟨"scoring_rubric.pdf", true, 2048, .ok "full rubric text"⟩

/-- A zero-byte source file whose ingestion fails the size check. -/
def badPdf : SrcFile :=
  ⟨"broken_scoring_rubric.pdf", true, 0, .ok "ignored"⟩

/-- The empty collection. -/
def emptyCol : Collection :=
  ⟨[]⟩

/-- A one-directory document tree. -/
def sampleTree : List FsEntry :=
  [FsEntry.dir "Backend Engineer" [goodPdf]]

/-- A model oracle that fails every request (never reached in the fail-fast
scenario). -/
def unreachableLLM : LLMOracle :=
  ⟨fun _ => .error "no model",
   fun _ _ _ => .error "no model",
   fun _ => .error "no model",
   fun _ _ _ => .error "no model",
   fun _ _ _ _ _ => .error "no model"⟩

/-- A stored job that failed with a rate-limit error message. -/
def failedJobA : StoredJob :=
  ⟨"job-1", JobStatus.FAILED, some "Gemini quota exceeded (429)", none⟩

/-- The same stored job with an unrelated error message. -/
def failedJobB : StoredJob :=
  ⟨"job-1", JobStatus.FAILED, some "a completely different failure", none⟩

/-- Job-store lookup returning `failedJobA`. -/
def lookupA : String → Option StoredJob :=
  fun id => if id = "job-1" then some failedJobA else none

/-- Job-store lookup returning `failedJobB`. -/
def lookupB : String → Option StoredJob :=
  fun id => if id = "job-1" then some failedJobB else none

/-! # Theorems -/

/-! ## C4 — stage output validation -/

/-- Claim C4, counterexample. A well-formed model response whose project score
is 7 — outside the declared `[1,5]` domain of `projectEvaluationSchemaCheck` —
is returned by `evaluateProjectReport` as a successful stage result, contrary
to the claim that such a response is treated as a retryable failure. -/
theorem c4_counterexample :
    evaluateProjectReport (some (some ⟨some 7, some "meets expectations"⟩)) =
      .ok ⟨some 7, some "meets expectations"⟩ ∧
    projectEvaluationSchemaCheck ⟨some 7, some "meets expectations"⟩ = false := by
  constructor
  · rfl
  · decide

/-- Claim C4, amended. The declared schema is only generation config sent to
the model API; locally `evaluateProjectReport` performs no domain or
required-field validation: every successfully parsed response object is
returned unchanged as a success, a response without text fails with the
no-response error, and the only successful outcomes are parsed objects
(accepted whether or not they satisfy `projectEvaluationSchemaCheck`). -/
theorem c4_theorem :
    (∀ j : ProjEvalJson, evaluateProjectReport (some (some j)) = .ok j) ∧
    (evaluateProjectReport none =
      .error "Failed to evaluate project case study - no response from LLM") ∧
    (∀ r, (∃ j, evaluateProjectReport r = .ok j) ↔ ∃ j, r = some (some j)) := by
  refine ⟨fun j => rfl, rfl, fun r => ?_⟩
  constructor
  · intro ⟨j, hj⟩
    match r with
    | none => exact absurd hj (by simp [evaluateProjectReport])
    | some none => exact absurd hj (by simp [evaluateProjectReport])
    | some (some j2) => exact ⟨j2, rfl⟩
  · intro ⟨j, hj⟩
    subst hj
    exact ⟨j, rfl⟩

/-- Claim C4, witness. The amended theorem applied to a concrete in-range
response object. -/
theorem c4_witness :
    evaluateProjectReport (some (some ⟨some 3, some "fine work"⟩)) =
      .ok ⟨some 3, some "fine work"⟩ :=
  c4_theorem.1 ⟨some 3, some "fine work"⟩

/-! ## C6 — job-title resolution not-found behaviour -/

/-- Claim C6, counterexample. On the empty query, `searchRelevantJob` throws
("Search query cannot be empty") instead of returning the not-found value,
even with a store that would answer the query. -/
theorem c6_counterexample :
    searchRelevantJob emptyOracle "" = .error "Search query cannot be empty" ∧
    searchRelevantJob emptyOracle "" ≠ .ok none := by
  constructor
  · rfl
  · decide

/-- Claim C6, amended. For a non-blank query, `searchRelevantJob` returns the
not-found value (rather than throwing) when the nearest-neighbor search yields
zero matches or a top match without a string job title, and throws only when
the store itself errors (wrapping the store error); an empty or blank query,
however, throws "Search query cannot be empty". -/
theorem c6_theorem (storeQuery : String → Except String (List QueryMeta))
    (q : String) (hq : jsTrim q ≠ "") :
    (storeQuery q = .ok [] → searchRelevantJob storeQuery q = .ok none) ∧
    (∀ m ms, storeQuery q = .ok (m :: ms) → m.jobTitle = none →
      searchRelevantJob storeQuery q = .ok none) ∧
    (∀ e, storeQuery q = .error e →
      searchRelevantJob storeQuery q = .error ("Failed to search relevant job: " ++ e)) ∧
    (∀ oracle2 : String → Except String (List QueryMeta),
      searchRelevantJob oracle2 "" = .error "Search query cannot be empty") := by
  refine ⟨?_, ?_, ?_, fun oracle2 => rfl⟩
  · intro h
    simp [searchRelevantJob, hq, h]
  · intro m ms h hm
    simp [searchRelevantJob, hq, h, hm]
  · intro e h
    simp [searchRelevantJob, hq, h]

/-- Claim C6, witness. The amended theorem applied to the empty-match oracle
and the concrete query "backend". -/
theorem c6_witness :
    jsTrim "backend" ≠ "" ∧ searchRelevantJob emptyOracle "backend" = .ok none := by
  refine ⟨by decide, ?_⟩
  exact (c6_theorem emptyOracle "backend" (by decide)).1 rfl

/-! ## C8 — result retrieval boundary -/

/-- Claim C8, counterexample. For a known terminal-failure job, the route
responds with status and `result: null` only; the response is byte-identical
for two stores that differ solely in the persisted error message, so the
classified error message is not returned, contrary to the claim. -/
theorem c8_counterexample :
    getResultRoute lookupA "job-1" = .ok ⟨"job-1", JobStatus.FAILED, none⟩ ∧
    getResultRoute lookupB "job-1" = getResultRoute lookupA "job-1" ∧
    failedJobA.errorMessage ≠ failedJobB.errorMessage := by
  refine ⟨rfl, rfl, by decide⟩

/-- Claim C8, amended. For every known job id the route returns the current
status; the full result payload is attached exactly when a result row exists
(in particular a job before worker pickup gets status only, `result: null`);
the persisted error message is never part of the response — the response is
unchanged under any replacement of the stored error message. -/
theorem c8_theorem (findJob : String → Option StoredJob) (jobId : String)
    (job : StoredJob) (hfound : findJob jobId = some job) :
    getResultRoute findJob jobId =
      .ok ⟨job.id, job.status, job.result.map toResultPayload⟩ ∧
    ((job.result.map toResultPayload).isSome ↔ job.result.isSome) ∧
    (∀ em, getResultRoute (fun x => (findJob x).map (fun j => withErrorMessage j em))
      jobId = getResultRoute findJob jobId) := by
  refine ⟨by simp [getResultRoute, hfound], by simp, ?_⟩
  intro em
  simp [getResultRoute, hfound, withErrorMessage]

/-- Claim C8, witness. The amended theorem applied to a concrete store holding
one failed job. -/
theorem c8_witness :
    lookupA "job-1" = some failedJobA ∧
    getResultRoute lookupA "job-1" =
      .ok ⟨failedJobA.id, failedJobA.status, failedJobA.result.map toResultPayload⟩ := by
  refine ⟨by decide, ?_⟩
  exact (c8_theorem lookupA "job-1" failedJobA (by decide)).1

/-! ## Lemmas on the persistence wrapper, shared by C1, C2, C3 and C7 -/

/-- Unfolding lemma for `runJob` on the empty attempt list. -/
theorem runJob_nil (db : Db) : runJob [] db = db := rfl

/-- Step lemma for `runJob` when the first attempt succeeds. -/
theorem runJob_cons_ok {env : AttemptEnv} {rest : List AttemptEnv} {db db2 : Db}
    {res : EvaluationResults}
    (h : evaluateCandidateAttempt env db = (db2, Except.ok res)) :
    runJob (env :: rest) db = db2 := by
  show (match evaluateCandidateAttempt env db with
        | (d, Except.ok _) => d
        | (d, Except.error _) => runJob rest d) = db2
  rw [h]

/-- Step lemma for `runJob` when the first attempt fails. -/
theorem runJob_cons_error {env : AttemptEnv} {rest : List AttemptEnv} {db db2 : Db}
    {msg : String}
    (h : evaluateCandidateAttempt env db = (db2, Except.error msg)) :
    runJob (env :: rest) db = runJob rest db2 := by
  show (match evaluateCandidateAttempt env db with
        | (d, Except.ok _) => d
        | (d, Except.error _) => runJob rest d) = runJob rest db2
  rw [h]

/-- Splitting `countStatus` over an appended log. -/
theorem countStatus_append (s : JobStatus) (l1 l2 : List JobStatus) :
    countStatus s (l1 ++ l2) = countStatus s l1 + countStatus s l2 := by
  induction l1 with
  | nil => simp [countStatus]
  | cons x xs ih =>
    simp [countStatus, ih]
    omega

/-- Unfolding lemma for `allWritesOk` on a cons cell. -/
theorem allWritesOk_cons (e : AttemptEnv) (r : List AttemptEnv) :
    allWritesOk (e :: r) = true ↔
      (e.procWriteOk = true ∧ e.saveResultOk = true ∧ e.finalWriteOk = true) ∧
        allWritesOk r = true := by
  simp [allWritesOk, List.all_cons, Bool.and_eq_true, and_assoc]

/-- One attempt whose pipeline succeeds, on a database with a live job row and
no result row, with all writes succeeding: it writes `PROCESSING`, inserts the
result row, writes `COMPLETED`, and returns the results. -/
theorem attempt_ok_eq (env : AttemptEnv) (db : Db) (row : JobRow)
    (res : EvaluationResults) (hjob : db.job = some row) (hres : db.result = none)
    (hpipe : env.pipeline = .ok res) (hp : env.procWriteOk = true)
    (hs : env.saveResultOk = true) (hf : env.finalWriteOk = true) :
    evaluateCandidateAttempt env db =
      ({ job := some ⟨JobStatus.COMPLETED, none⟩,
         result := some (toResultRow res),
         log := db.log ++ [JobStatus.PROCESSING, JobStatus.COMPLETED] }, .ok res) := by
  simp [evaluateCandidateAttempt, hpipe, updateJobStatus, hjob, hp, hs, hf,
    saveEvaluationResults, hres, normMsg]

/-- One attempt whose pipeline fails, on a database with a live job row, with
the status writes succeeding: it writes `PROCESSING`, then `FAILED` carrying
the raw error message, leaves the result untouched and rethrows the raw
error. -/
theorem attempt_error_eq (env : AttemptEnv) (db : Db) (row : JobRow) (msg : String)
    (hjob : db.job = some row) (hpipe : env.pipeline = .error msg)
    (hp : env.procWriteOk = true) (hf : env.finalWriteOk = true) :
    evaluateCandidateAttempt env db =
      ({ job := some ⟨JobStatus.FAILED, normMsg (some msg)⟩,
         result := db.result,
         log := db.log ++ [JobStatus.PROCESSING, JobStatus.FAILED] }, .error msg) := by
  simp [evaluateCandidateAttempt, hpipe, updateJobStatus, hjob, hp, hf]

/-- Through any run whose writes all succeed, started on a live row that is
not yet `COMPLETED` and has no result row, the final state has a live row and
satisfies: a result row exists iff the final status is `COMPLETED`. -/
theorem runJob_result_iff (envs : List AttemptEnv) :
    ∀ (db : Db) (row : JobRow), allWritesOk envs = true →
      db.result = none → db.job = some row → row.status ≠ JobStatus.COMPLETED →
      ∃ row2, (runJob envs db).job = some row2 ∧
        ((runJob envs db).result.isSome = true ↔
          row2.status = JobStatus.COMPLETED) := by
  induction envs with
  | nil =>
    intro db row _ hres hjob hne
    rw [runJob_nil]
    exact ⟨row, hjob, by rw [hres]; simp [hne]⟩
  | cons env rest ih =>
    intro db row hall hres hjob hne
    obtain ⟨⟨hp, hs, hf⟩, hrest⟩ := (allWritesOk_cons env rest).mp hall
    cases hpipe : env.pipeline with
    | ok res =>
      have heq := attempt_ok_eq env db row res hjob hres hpipe hp hs hf
      rw [runJob_cons_ok heq]
      exact ⟨⟨JobStatus.COMPLETED, none⟩, rfl, by simp⟩
    | error msg =>
      have heq := attempt_error_eq env db row msg hjob hpipe hp hf
      rw [runJob_cons_error heq]
      exact ih _ ⟨JobStatus.FAILED, normMsg (some msg)⟩ hrest hres rfl (by simp)

/-- Through any run whose writes all succeed, `PROCESSING` is written exactly
once per executed attempt. -/
theorem runJob_processing_count (envs : List AttemptEnv) :
    ∀ (db : Db) (row : JobRow), allWritesOk envs = true →
      db.result = none → db.job = some row →
      countStatus JobStatus.PROCESSING (runJob envs db).log =
        countStatus JobStatus.PROCESSING db.log + attemptsUsed envs := by
  induction envs with
  | nil =>
    intro db row _ _ _
    rw [runJob_nil]
    simp [attemptsUsed]
  | cons env rest ih =>
    intro db row hall hres hjob
    obtain ⟨⟨hp, hs, hf⟩, hrest⟩ := (allWritesOk_cons env rest).mp hall
    cases hpipe : env.pipeline with
    | ok res =>
      have heq := attempt_ok_eq env db row res hjob hres hpipe hp hs hf
      rw [runJob_cons_ok heq]
      have h1 : attemptsUsed (env :: rest) = 1 := by
        simp [attemptsUsed, hpipe]
      rw [h1]
      simp [countStatus_append, countStatus]
    | error msg =>
      have heq := attempt_error_eq env db row msg hjob hpipe hp hf
      rw [runJob_cons_error heq]
      have hrec := ih { job := some ⟨JobStatus.FAILED, normMsg (some msg)⟩,
                        result := db.result,
                        log := db.log ++ [JobStatus.PROCESSING, JobStatus.FAILED] }
          ⟨JobStatus.FAILED, normMsg (some msg)⟩ hrest hres rfl
      rw [hrec]
      have h1 : attemptsUsed (env :: rest) = 1 + attemptsUsed rest := by
        simp [attemptsUsed, hpipe]
      rw [h1]
      simp [countStatus_append, countStatus]
      omega

/-- Through any run whose attempts all fail and whose writes all succeed,
`FAILED` is written once per attempt, and the final row (for a nonempty run)
reads `FAILED`. -/
theorem runJob_all_failed (envs : List AttemptEnv) :
    ∀ (db : Db) (row : JobRow), allWritesOk envs = true →
      envs.all pipelineFails = true → db.job = some row →
      countStatus JobStatus.FAILED (runJob envs db).log =
        countStatus JobStatus.FAILED db.log + envs.length ∧
      (envs ≠ [] →
        ∃ msg, (runJob envs db).job = some ⟨JobStatus.FAILED, msg⟩) := by
  induction envs with
  | nil =>
    intro db row _ _ _
    rw [runJob_nil]
    exact ⟨by simp, fun h => absurd rfl h⟩
  | cons env rest ih =>
    intro db row hall hfail hjob
    obtain ⟨⟨hp, hs, hf⟩, hrest⟩ := (allWritesOk_cons env rest).mp hall
    have hfenv : pipelineFails env = true :=
      List.all_eq_true.mp hfail env (by simp)
    have hfrest : rest.all pipelineFails = true := by
      rw [List.all_cons] at hfail
      exact ((Bool.and_eq_true _ _).mp hfail).2
    cases hpipe : env.pipeline with
    | ok res =>
      simp [pipelineFails, hpipe] at hfenv
    | error msg =>
      have heq := attempt_error_eq env db row msg hjob hpipe hp hf
      rw [runJob_cons_error heq]
      have hrec := ih { job := some ⟨JobStatus.FAILED, normMsg (some msg)⟩,
                        result := db.result,
                        log := db.log ++ [JobStatus.PROCESSING, JobStatus.FAILED] }
          ⟨JobStatus.FAILED, normMsg (some msg)⟩ hrest hfrest rfl
      constructor
      · rw [hrec.1]
        simp [countStatus_append, countStatus]
        omega
      · intro _
        cases hr : rest with
        | nil =>
          subst hr
          rw [runJob_nil]
          exact ⟨normMsg (some msg), rfl⟩
        | cons r rs =>
          subst hr
          exact hrec.2 (by simp)

/-! ## C1 — result row iff COMPLETED, atomicity -/

/-- Claim C1, counterexample. When the pipeline and the result write succeed
but the subsequent `COMPLETED` status update fails (its error is swallowed by
`updateJobStatus`), the attempt still returns success while the database holds
a result row with the status left at `PROCESSING` — the two writes are not a
single atomic unit. -/
theorem c1_counterexample :
    (evaluateCandidateAttempt envNoFinalWrite db0).2 = .ok sampleResults ∧
    (evaluateCandidateAttempt envNoFinalWrite db0).1.result.isSome = true ∧
    (evaluateCandidateAttempt envNoFinalWrite db0).1.job =
      some ⟨JobStatus.PROCESSING, none⟩ := by
  refine ⟨by decide, by decide, by decide⟩

/-- Claim C1, amended. The result insert and the `COMPLETED` status update are
two sequential, non-transactional writes; provided every database write of the
run physically succeeds, the final state does satisfy the invariant: a result
row exists iff the job's status is `COMPLETED` (but a failed `COMPLETED`
update after the result insert breaks it, as the counterexample shows). -/
theorem c1_theorem (envs : List AttemptEnv) (hall : allWritesOk envs = true) :
    ∃ row, (runJob envs db0).job = some row ∧
      ((runJob envs db0).result.isSome = true ↔
        row.status = JobStatus.COMPLETED) :=
  runJob_result_iff envs db0 ⟨JobStatus.QUEUED, none⟩ hall rfl rfl (by decide)

/-- Claim C1, witness. The amended theorem applied to a concrete run: one
failing attempt followed by one successful attempt, all writes succeeding. -/
theorem c1_witness :
    allWritesOk [envFailOverload, envSuccess] = true ∧
    ∃ row, (runJob [envFailOverload, envSuccess] db0).job = some row ∧
      ((runJob [envFailOverload, envSuccess] db0).result.isSome = true ↔
        row.status = JobStatus.COMPLETED) :=
  ⟨by decide, c1_theorem [envFailOverload, envSuccess] (by decide)⟩

/-! ## C2 — PROCESSING written exactly once -/

/-- Claim C2, counterexample. In a run whose first attempt fails and whose
second succeeds (all writes succeeding), the status write log is
`PROCESSING, FAILED, PROCESSING, COMPLETED`: `PROCESSING` is written twice,
and the job moves from `FAILED` back to `PROCESSING` on the retry — contrary
to the claim that `PROCESSING` is written exactly once and that no job leaves
`FAILED`. -/
theorem c2_counterexample :
    (runJob [envFailOverload, envSuccess] db0).log =
      [JobStatus.PROCESSING, JobStatus.FAILED,
       JobStatus.PROCESSING, JobStatus.COMPLETED] ∧
    countStatus JobStatus.PROCESSING (runJob [envFailOverload, envSuccess] db0).log = 2 := by
  refine ⟨by decide, by decide⟩

/-- Claim C2, amended. `evaluateCandidate` writes `PROCESSING` at the start of
every worker attempt, so over a run with all writes succeeding the number of
`PROCESSING` writes equals the number of attempts executed (up to the
configured maximum), not one per job; each retry overwrites the `FAILED`
status of the previous attempt. -/
theorem c2_theorem (envs : List AttemptEnv) (hall : allWritesOk envs = true) :
    countStatus JobStatus.PROCESSING (runJob envs db0).log = attemptsUsed envs := by
  have h := runJob_processing_count envs db0 ⟨JobStatus.QUEUED, none⟩ hall rfl rfl
  simpa [db0, countStatus] using h

/-- Claim C2, witness. The amended theorem applied to a concrete
two-attempt run. -/
theorem c2_witness :
    allWritesOk [envFailTimeout, envSuccess] = true ∧
    countStatus JobStatus.PROCESSING (runJob [envFailTimeout, envSuccess] db0).log =
      attemptsUsed [envFailTimeout, envSuccess] :=
  ⟨by decide, c2_theorem [envFailTimeout, envSuccess] (by decide)⟩

/-! ## C3 — FAILED only after the last attempt -/

/-- Claim C3, counterexample. In a three-attempt run whose attempts all fail
(the configured maximum is 3), the very first attempt already leaves the job
row at `FAILED` — the run continues from exactly that state — and `FAILED` is
written three times in total, not only once after the final attempt. -/
theorem c3_counterexample :
    (evaluateCandidateAttempt envFailTimeout db0).1.job =
      some ⟨JobStatus.FAILED, some "Request timeout after 30000 ms"⟩ ∧
    runJob [envFailTimeout, envFailTimeout, envFailTimeout] db0 =
      runJob [envFailTimeout, envFailTimeout]
        (evaluateCandidateAttempt envFailTimeout db0).1 ∧
    countStatus JobStatus.FAILED
      (runJob [envFailTimeout, envFailTimeout, envFailTimeout] db0).log = 3 := by
  refine ⟨by decide, by decide, by decide⟩

/-- Claim C3, amended. When every attempt of a run fails with all writes
succeeding, the job does end at `FAILED` after the attempts are exhausted, but
`FAILED` is written once per failing attempt (so `envs.length` times, the
configured maximum being `ATTEMPTS_RETRY = 3`), not only after the final
attempt: every intermediate failing attempt also leaves the job at `FAILED`
until the next retry rewrites `PROCESSING`. -/
theorem c3_theorem (envs : List AttemptEnv) (h1 : allWritesOk envs = true)
    (h2 : envs.all pipelineFails = true) (h3 : envs ≠ []) :
    (∃ msg, (runJob envs db0).job = some ⟨JobStatus.FAILED, msg⟩) ∧
    countStatus JobStatus.FAILED (runJob envs db0).log = envs.length := by
  have h := runJob_all_failed envs db0 ⟨JobStatus.QUEUED, none⟩ h1 h2 rfl
  exact ⟨h.2 h3, by simpa [db0, countStatus] using h.1⟩

/-- Claim C3, witness. The amended theorem applied to a concrete run of
exactly `ATTEMPTS_RETRY` failing attempts. -/
theorem c3_witness :
    [envFailTimeout, envFailOverload, envFailTimeout].length = ATTEMPTS_RETRY ∧
    allWritesOk [envFailTimeout, envFailOverload, envFailTimeout] = true ∧
    [envFailTimeout, envFailOverload, envFailTimeout].all pipelineFails = true ∧
    ((∃ msg, (runJob [envFailTimeout, envFailOverload, envFailTimeout] db0).job =
        some ⟨JobStatus.FAILED, msg⟩) ∧
      countStatus JobStatus.FAILED
        (runJob [envFailTimeout, envFailOverload, envFailTimeout] db0).log =
        [envFailTimeout, envFailOverload, envFailTimeout].length) :=
  ⟨by decide, by decide, by decide,
    c3_theorem [envFailTimeout, envFailOverload, envFailTimeout]
      (by decide) (by decide) (List.cons_ne_nil _ _)⟩

/-! ## C7 — persisted FAILED message -/

/-- Claim C7, counterexample. For a timeout failure, the job store receives
the raw internal error string ("Request timeout after 30000 ms"), while the
worker's classified sentence ("Evaluation timed out. Please try again.") is
only thrown as the queue-level failure reason — the persisted message is
neither the classified sentence nor the spec's example wording. -/
theorem c7_counterexample :
    (workerProcess envFailTimeout db0).1.job =
      some ⟨JobStatus.FAILED, some "Request timeout after 30000 ms"⟩ ∧
    classifyError "Request timeout after 30000 ms" =
      "Evaluation timed out. Please try again." ∧
    (workerProcess envFailTimeout db0).1.job ≠
      some ⟨JobStatus.FAILED,
        some (classifyError "Request timeout after 30000 ms")⟩ ∧
    (workerProcess envFailTimeout db0).1.job ≠
      some ⟨JobStatus.FAILED, some "Evaluation timed out, please try again"⟩ := by
  refine ⟨by decide, by decide, by decide, by decide⟩

/-- Claim C7, amended. Whenever a failing attempt writes `FAILED` (live row,
status writes succeeding, non-empty raw message), the persisted error message
is exactly the raw pipeline error message, while the classified user-facing
sentence produced by the worker from that raw message becomes only the thrown
queue-level failure reason and is never persisted. -/
theorem c7_theorem (env : AttemptEnv) (db : Db) (row : JobRow) (msg : String)
    (hjob : db.job = some row) (hpipe : env.pipeline = .error msg)
    (hp : env.procWriteOk = true) (hf : env.finalWriteOk = true)
    (hmsg : msg ≠ "") :
    (workerProcess env db).1.job = some ⟨JobStatus.FAILED, some msg⟩ ∧
    (workerProcess env db).2 = .error (classifyError msg) := by
  have heq := attempt_error_eq env db row msg hjob hpipe hp hf
  constructor
  · simp [workerProcess, heq, normMsg, hmsg]
  · simp [workerProcess, heq]

/-- Claim C7, witness. The amended theorem applied to a concrete timeout
failure on a fresh job. -/
theorem c7_witness :
    db0.job = some ⟨JobStatus.QUEUED, none⟩ ∧
    envFailTimeout.pipeline = .error "Request timeout after 30000 ms" ∧
    ((workerProcess envFailTimeout db0).1.job =
        some ⟨JobStatus.FAILED, some "Request timeout after 30000 ms"⟩ ∧
      (workerProcess envFailTimeout db0).2 =
        .error (classifyError "Request timeout after 30000 ms")) :=
  ⟨rfl, rfl,
    c7_theorem envFailTimeout db0 ⟨JobStatus.QUEUED, none⟩
      "Request timeout after 30000 ms" rfl rfl rfl rfl (by decide)⟩

/-! ## C5 — missing-document fail-fast -/

/-- When a resolved (non-blank) title has no document of the requested kind,
`searchJobDocument` fails naming exactly that kind. -/
theorem searchJobDocument_missing (col : Collection) (t k : String)
    (ht : jsTrim t ≠ "")
    (hmiss : ∀ d ∈ col.docs, d.jobTitle = t → d.documentType ≠ k) :
    searchJobDocument col t k =
      .error ("No " ++ k ++ " found for job title: " ++ t) := by
  unfold searchJobDocument
  rw [if_neg ht]
  have hnone : (col.docs.filter (fun d => d.jobTitle == t)).find?
      (fun d => d.documentType == k) = none := by
    rw [List.find?_eq_none]
    intro d hd
    have hmem := List.mem_filter.mp hd
    have hjt : d.jobTitle = t := by simpa using hmem.2
    have hne := hmiss d hmem.1 hjt
    simpa using hne
  rw [hnone]

/-- When a resolved (non-blank) title does hold a document of the requested
kind, `searchJobDocument` succeeds. -/
theorem searchJobDocument_found (col : Collection) (t k : String)
    (ht : jsTrim t ≠ "")
    (hhit : ∃ d ∈ col.docs, d.jobTitle = t ∧ d.documentType = k) :
    ∃ text, searchJobDocument col t k = .ok text := by
  unfold searchJobDocument
  rw [if_neg ht]
  obtain ⟨d, hd, hdt, hdk⟩ := hhit
  have hsome : ((col.docs.filter (fun d => d.jobTitle == t)).find?
      (fun d => d.documentType == k)).isSome = true := by
    rw [List.find?_isSome]
    exact ⟨d, List.mem_filter.mpr ⟨hd, by simp [hdt]⟩, by simp [hdk]⟩
  obtain ⟨d2, hd2⟩ := Option.isSome_iff_exists.mp hsome
  rw [hd2]
  exact ⟨cleanPdfText d2.text, rfl⟩

/-- Claim C5. If the job title resolves to a title `t` but exactly one of the
three reference document kinds is absent for `t` (the other two present),
then the whole pipeline fails during stage 1 with the error naming exactly
the missing kind, and zero model-gateway calls are made — for every model
oracle and every candidate-document outcome. -/
theorem c5_theorem (storeQuery : String → Except String (List QueryMeta))
    (col : Collection) (llm : LLMOracle)
    (candidateDocs : Except String (String × String)) (query t k : String)
    (hres : searchRelevantJob storeQuery query = .ok (some t))
    (ht : jsTrim t ≠ "")
    (hk : k = "job_description" ∨ k = "scoring_rubric" ∨ k = "case_study_brief")
    (hmiss : ∀ d ∈ col.docs, d.jobTitle = t → d.documentType ≠ k)
    (hothers : ∀ k2, (k2 = "job_description" ∨ k2 = "scoring_rubric" ∨
        k2 = "case_study_brief") → k2 ≠ k →
        ∃ d ∈ col.docs, d.jobTitle = t ∧ d.documentType = k2) :
    runPipeline storeQuery col llm candidateDocs query =
      (0, .error ("No " ++ k ++ " found for job title: " ++ t)) := by
  have hret : retrieveJobDocuments storeQuery col query =
      .error ("No " ++ k ++ " found for job title: " ++ t) := by
    unfold retrieveJobDocuments
    simp only [hres]
    rcases hk with hk | hk | hk
    · subst hk
      simp only [searchJobDocument_missing col t "job_description" ht hmiss]
    · subst hk
      obtain ⟨jd, hjd⟩ := searchJobDocument_found col t "job_description" ht
        (hothers _ (Or.inl rfl) (by decide))
      simp only [hjd, searchJobDocument_missing col t "scoring_rubric" ht hmiss]
    · subst hk
      obtain ⟨jd, hjd⟩ := searchJobDocument_found col t "job_description" ht
        (hothers _ (Or.inl rfl) (by decide))
      obtain ⟨sr, hsr⟩ := searchJobDocument_found col t "scoring_rubric" ht
        (hothers _ (Or.inr (Or.inl rfl)) (by decide))
      simp only [hjd, hsr, searchJobDocument_missing col t "case_study_brief" ht hmiss]
  unfold runPipeline
  simp only [hret]

/-- Claim C5, witness. The theorem applied to a concrete store in which a
free-form query resolves to the backend title whose scoring rubric is absent:
the pipeline fails naming the rubric with zero model calls. -/
theorem c5_witness :
    searchRelevantJob backendOracle "Backend Engineer" =
      .ok (some "backend_engineer_2025") ∧
    jsTrim "backend_engineer_2025" ≠ "" ∧
    runPipeline backendOracle backendNoRubric unreachableLLM
      (.ok ("cv text", "project text")) "Backend Engineer" =
      (0, .error "No scoring_rubric found for job title: backend_engineer_2025") := by
  refine ⟨by decide, by decide, ?_⟩
  exact c5_theorem backendOracle backendNoRubric unreachableLLM
    (.ok ("cv text", "project text")) "Backend Engineer" "backend_engineer_2025"
    "scoring_rubric" (by decide) (by decide) (Or.inr (Or.inl rfl))
    (by decide)
    (fun k2 hk2 hne => by
      rcases hk2 with h | h | h
      · subst h
        exact ⟨jdDoc, by decide, by decide, by decide⟩
      · subst h
        exact absurd rfl hne
      · subst h
        exact ⟨csbDoc, by decide, by decide, by decide⟩)

/-! ## C9 — ingestion idempotence and per-file skip -/

/-- Ingesting one file never removes documents. -/
theorem ingestDocument_length_le (col : Collection) (t : String) (f : SrcFile) :
    col.docs.length ≤ (ingestDocument col t f).docs.length := by
  unfold ingestDocument
  cases hc : ingestDocumentCore t f with
  | error e =>
    simp only [hc]
    exact Nat.le_refl _
  | ok d =>
    simp only [hc]
    cases ha : collectionAdd col d with
    | error e2 =>
      simp only [ha]
      exact Nat.le_refl _
    | ok col2 =>
      simp only [ha]
      have hdocs : col2.docs = col.docs ++ [d] := by
        unfold collectionAdd at ha
        split at ha
        · cases ha
        · cases ha
          rfl
      rw [hdocs]
      simp only [List.length_append, List.length_cons, List.length_nil]
      omega

/-- Folding `ingestDocument` over files never removes documents. -/
theorem foldIngest_length_le (t : String) (fs : List SrcFile) :
    ∀ col : Collection, col.docs.length ≤
      (fs.foldl (fun c f => ingestDocument c t f) col).docs.length := by
  induction fs with
  | nil =>
    intro col
    simp
  | cons f fs ih =>
    intro col
    calc col.docs.length
        ≤ (ingestDocument col t f).docs.length := ingestDocument_length_le col t f
      _ ≤ _ := ih (ingestDocument col t f)

/-- Ingesting one job directory never removes documents. -/
theorem ingestJobDocuments_length_le (col : Collection) (t : String)
    (files : List SrcFile) :
    col.docs.length ≤ (ingestJobDocuments col t files).docs.length :=
  foldIngest_length_le t (files.filter (fun f => endsWithPdf f.filename)) col

/-- Folding ingestion over the whole document tree never removes documents. -/
theorem foldTree_length_le (tree : List FsEntry) :
    ∀ col : Collection, col.docs.length ≤
      (tree.foldl
        (fun c entry =>
          match entry with
          | FsEntry.dir name files => ingestJobDocuments c name files
          | FsEntry.file _ => c)
        col).docs.length := by
  induction tree with
  | nil =>
    intro col
    simp
  | cons e es ih =>
    intro col
    cases e with
    | dir name files =>
      calc col.docs.length
          ≤ (ingestJobDocuments col name files).docs.length :=
            ingestJobDocuments_length_le col name files
        _ ≤ _ := ih (ingestJobDocuments col name files)
    | file name => exact ih col

/-- A collection with no documents is the empty collection. -/
theorem collection_eq_empty (c : Collection) (h : c.docs = []) : c = ⟨[]⟩ := by
  cases c
  cases h
  rfl

/-- An ingestion run on a store that already holds a document writes
nothing. -/
theorem ingestAll_skip (col : Collection) (tree : List FsEntry)
    (h : col.docs ≠ []) : ingestAllDocuments col tree = col := by
  have hd : hasDocuments col = true := by
    simp [hasDocuments]
    exact List.length_pos.mpr h
  simp [ingestAllDocuments, hd]

/-- Claim C9. Ingestion is idempotent — a run on a non-empty store performs no
writes, and running ingestion twice leaves the same store state as running it
once — and an individual file whose ingestion fails is skipped without
aborting the ingestion of the remaining files of its directory. -/
theorem c9_theorem :
    (∀ (col : Collection) (tree : List FsEntry), col.docs ≠ [] →
      ingestAllDocuments col tree = col) ∧
    (∀ (col : Collection) (tree : List FsEntry),
      ingestAllDocuments (ingestAllDocuments col tree) tree =
        ingestAllDocuments col tree) ∧
    (∀ (col : Collection) (t : String) (f : SrcFile) (files : List SrcFile),
      endsWithPdf f.filename = true →
      (∃ e, ingestDocumentCore t f = .error e) →
      ingestJobDocuments col t (f :: files) = ingestJobDocuments col t files) := by
  refine ⟨ingestAll_skip, ?_, ?_⟩
  · intro col tree
    by_cases h : (ingestAllDocuments col tree).docs = []
    · have hcol : col.docs = [] := by
        by_cases hc : hasDocuments col = true
        · have heq : ingestAllDocuments col tree = col := by
            simp [ingestAllDocuments, hc]
          rw [heq] at h
          exact h
        · have hlen : ¬ 0 < col.docs.length := by
            simpa [hasDocuments] using hc
          exact List.eq_nil_of_length_eq_zero (by omega)
      have hcoleq : col = ⟨[]⟩ := collection_eq_empty col hcol
      have hreseq : ingestAllDocuments col tree = ⟨[]⟩ :=
        collection_eq_empty _ h
      have h2 : ingestAllDocuments col tree = col := by
        rw [hreseq, hcoleq]
      rw [h2]
      exact h2
    · exact ingestAll_skip _ tree h
  · intro col t f files hpdf he
    obtain ⟨e, he⟩ := he
    have hskip : ingestDocument col t f = col := by
      simp [ingestDocument, he]
    have hfilter : List.filter (fun f => endsWithPdf f.filename) (f :: files) =
        f :: List.filter (fun f => endsWithPdf f.filename) files := by
      simp [List.filter_cons, hpdf]
    unfold ingestJobDocuments
    simp only [hfilter, List.foldl_cons, hskip]

/-- Claim C9, witness. The theorem applied to a concrete non-empty store (no
writes on re-ingestion) and to a directory whose first file is zero-byte (it
is skipped, the remaining rubric is still ingested). -/
theorem c9_witness :
    backendNoRubric.docs ≠ [] ∧
    ingestAllDocuments backendNoRubric sampleTree = backendNoRubric ∧
    endsWithPdf badPdf.filename = true ∧
    ingestDocumentCore "Backend Engineer" badPdf =
      .error "File is empty: broken_scoring_rubric.pdf" ∧
    ingestJobDocuments emptyCol "Backend Engineer" [badPdf, goodPdf] =
      ingestJobDocuments emptyCol "Backend Engineer" [goodPdf] := by
  refine ⟨by decide, ?_, by decide, by decide, ?_⟩
  · exact c9_theorem.1 backendNoRubric sampleTree (by decide)
  · exact c9_theorem.2.2 emptyCol "Backend Engineer" badPdf [goodPdf] (by decide)
      ⟨"File is empty: broken_scoring_rubric.pdf", by decide⟩

/-! ## C10 — cleanPdfText removes every whitespace character -/

/-- A list has no non-whitespace character iff all its characters are
whitespace. -/
theorem any_nonws_eq_false (cs : List Char) :
    cs.any (fun d => !jsWhitespace d) = false ↔
      ∀ x ∈ cs, jsWhitespace x = true := by
  constructor
  · intro h x hx
    by_contra hxx
    have hfalse : jsWhitespace x = false := by
      cases hh : jsWhitespace x
      · rfl
      · exact absurd hh hxx
    have : cs.any (fun d => !jsWhitespace d) = true :=
      List.any_eq_true.mpr ⟨x, hx, by simp [hfalse]⟩
    rw [this] at h
    cases h
  · intro h
    cases hh : cs.any (fun d => !jsWhitespace d)
    · rfl
    · obtain ⟨x, hx, hxx⟩ := List.any_eq_true.mp hh
      rw [h x hx] at hxx
      cases hxx

/-- The first substitution keeps an all-whitespace list unchanged. -/
theorem strip_of_all_ws : ∀ l : List Char,
    (∀ c ∈ l, jsWhitespace c = true) → stripWsBeforeNonWs l = l := by
  intro l
  induction l with
  | nil => intro _; rfl
  | cons c cs ih =>
    intro h
    have hcs : ∀ x ∈ cs, jsWhitespace x = true :=
      fun x hx => h x (List.mem_cons_of_mem c hx)
    have hany : cs.any (fun d => !jsWhitespace d) = false :=
      (any_nonws_eq_false cs).mpr hcs
    simp [stripWsBeforeNonWs, hany, ih hcs]

/-- Every character of the trailing whitespace run is whitespace. -/
theorem wsSuffix_all_ws : ∀ l : List Char, ∀ c ∈ wsSuffix l, jsWhitespace c = true := by
  intro l
  induction l with
  | nil =>
    intro c hc
    simp [wsSuffix] at hc
  | cons x xs ih =>
    intro c hc
    simp only [wsSuffix] at hc
    by_cases hcond : (jsWhitespace x && !xs.any (fun d => !jsWhitespace d)) = true
    · rw [if_pos hcond] at hc
      obtain ⟨hx, hneg⟩ := Bool.and_eq_true _ _ |>.mp hcond
      have hall := (any_nonws_eq_false xs).mp (by simpa using hneg)
      rcases List.mem_cons.mp hc with rfl | hmem
      · exact hx
      · exact hall c hmem
    · rw [if_neg hcond] at hc
      exact ih c hc

/-- The first substitution keeps exactly the non-whitespace characters plus
the trailing whitespace run. -/
theorem strip_eq_filter_append : ∀ l : List Char,
    stripWsBeforeNonWs l =
      l.filter (fun c => !jsWhitespace c) ++ wsSuffix l := by
  intro l
  induction l with
  | nil => rfl
  | cons c cs ih =>
    cases hw : jsWhitespace c with
    | true =>
      cases hany : cs.any (fun d => !jsWhitespace d) with
      | true =>
        have hstrip : stripWsBeforeNonWs (c :: cs) = stripWsBeforeNonWs cs := by
          simp [stripWsBeforeNonWs, hw, hany]
        have hfil : List.filter (fun x => !jsWhitespace x) (c :: cs) =
            List.filter (fun x => !jsWhitespace x) cs := by
          simp [List.filter_cons, hw]
        have hsuf : wsSuffix (c :: cs) = wsSuffix cs := by
          simp [wsSuffix, hw, hany]
        rw [hstrip, hfil, hsuf, ih]
      | false =>
        have hall := (any_nonws_eq_false cs).mp hany
        have hstrip : stripWsBeforeNonWs (c :: cs) = c :: stripWsBeforeNonWs cs := by
          simp [stripWsBeforeNonWs, hany]
        have hfil : List.filter (fun x => !jsWhitespace x) (c :: cs) =
            List.filter (fun x => !jsWhitespace x) cs := by
          simp [List.filter_cons, hw]
        have hfil2 : List.filter (fun x => !jsWhitespace x) cs = [] := by
          rw [List.filter_eq_nil_iff]
          intro a ha
          simp [hall a ha]
        have hsuf : wsSuffix (c :: cs) = c :: cs := by
          simp [wsSuffix, hw, hany]
        rw [hstrip, hfil, hfil2, hsuf, strip_of_all_ws cs hall]
        simp
    | false =>
      have hstrip : stripWsBeforeNonWs (c :: cs) = c :: stripWsBeforeNonWs cs := by
        simp [stripWsBeforeNonWs, hw]
      have hfil : List.filter (fun x => !jsWhitespace x) (c :: cs) =
          c :: List.filter (fun x => !jsWhitespace x) cs := by
        simp [List.filter_cons, hw]
      have hsuf : wsSuffix (c :: cs) = wsSuffix cs := by
        simp [wsSuffix, hw]
      rw [hstrip, hfil, hsuf, ih]
      simp

/-- Inside a whitespace run, the rest of an all-whitespace list collapses to
nothing. -/
theorem collapse_aux_true_all_ws : ∀ b : List Char,
    (∀ c ∈ b, jsWhitespace c = true) → collapseWsAux true b = [] := by
  intro b
  induction b with
  | nil => intro _; rfl
  | cons x xs ih =>
    intro h
    have hx := h x (List.mem_cons_self x xs)
    simp [collapseWsAux, hx, ih (fun c hc => h c (List.mem_cons_of_mem x hc))]

/-- An all-whitespace list collapses to at most one space. -/
theorem collapse_aux_false_all_ws : ∀ b : List Char,
    (∀ c ∈ b, jsWhitespace c = true) →
    collapseWsAux false b = if b = [] then [] else [' '] := by
  intro b
  cases b with
  | nil => intro _; rfl
  | cons x xs =>
    intro h
    have hx := h x (List.mem_cons_self x xs)
    simp [collapseWsAux, hx,
      collapse_aux_true_all_ws xs (fun c hc => h c (List.mem_cons_of_mem x hc))]

/-- Collapsing a non-whitespace block followed by a whitespace run yields the
block plus at most one trailing space. -/
theorem collapse_aux_split : ∀ a : List Char, (∀ c ∈ a, jsWhitespace c = false) →
    ∀ b : List Char, (∀ c ∈ b, jsWhitespace c = true) →
    collapseWsAux false (a ++ b) = a ++ (if b = [] then [] else [' ']) := by
  intro a
  induction a with
  | nil =>
    intro _ b hb
    simpa using collapse_aux_false_all_ws b hb
  | cons x xs ih =>
    intro ha b hb
    have hx := ha x (List.mem_cons_self x xs)
    have hxs : ∀ c ∈ xs, jsWhitespace c = false :=
      fun c hc => ha c (List.mem_cons_of_mem x hc)
    rw [List.cons_append]
    have hstep : collapseWsAux false (x :: (xs ++ b)) =
        x :: collapseWsAux false (xs ++ b) := by
      simp [collapseWsAux, hx]
    rw [hstep, ih hxs b hb, List.cons_append]

/-- `dropWhile` of the whitespace predicate keeps an all-non-whitespace list
unchanged. -/
theorem dropWhile_of_all_nonws : ∀ l : List Char,
    (∀ c ∈ l, jsWhitespace c = false) → l.dropWhile jsWhitespace = l := by
  intro l
  cases l with
  | nil => intro _; rfl
  | cons x xs =>
    intro h
    have hx := h x (List.mem_cons_self x xs)
    simp [List.dropWhile_cons, hx]

/-- Trimming keeps an all-non-whitespace list unchanged. -/
theorem trimChars_of_nonws : ∀ a : List Char,
    (∀ c ∈ a, jsWhitespace c = false) → trimChars a = a := by
  intro a ha
  unfold trimChars
  rw [dropWhile_of_all_nonws a ha]
  rw [dropWhile_of_all_nonws a.reverse (fun c hc => ha c (List.mem_reverse.mp hc))]
  exact List.reverse_reverse a

/-- Trimming removes the single trailing space left by the collapse step. -/
theorem trimChars_nonws_space : ∀ a : List Char,
    (∀ c ∈ a, jsWhitespace c = false) → trimChars (a ++ [' ']) = a := by
  intro a ha
  unfold trimChars
  cases a with
  | nil =>
    have hsp : jsWhitespace ' ' = true := by decide
    simp [List.dropWhile_cons, hsp]
  | cons x xs =>
    have hx := ha x (List.mem_cons_self x xs)
    have hxs : ∀ c ∈ xs, jsWhitespace c = false :=
      fun c hc => ha c (List.mem_cons_of_mem x hc)
    have hrev : ∀ c ∈ xs.reverse ++ [x], jsWhitespace c = false := by
      intro c hc
      rcases List.mem_append.mp hc with h | h
      · exact hxs c (List.mem_reverse.mp h)
      · rw [List.mem_singleton.mp h]
        exact hx
    have h1 : List.dropWhile jsWhitespace ((x :: xs) ++ [' ']) =
        (x :: xs) ++ [' '] := by
      rw [List.cons_append, List.dropWhile_cons]
      simp [hx]
    rw [h1]
    have h2 : ((x :: xs) ++ [' ']).reverse = ' ' :: (xs.reverse ++ [x]) := by
      simp
    rw [h2]
    have hsp : jsWhitespace ' ' = true := by decide
    have h3 : List.dropWhile jsWhitespace (' ' :: (xs.reverse ++ [x])) =
        List.dropWhile jsWhitespace (xs.reverse ++ [x]) := by
      rw [List.dropWhile_cons]
      simp [hsp]
    rw [h3, dropWhile_of_all_nonws _ hrev]
    simp

/-- Claim C10. For every input string, `cleanPdfText` returns exactly the
non-whitespace characters of the input, in order: its output contains no
whitespace character at all — the first substitution deletes every whitespace
run that precedes a non-whitespace character, and the remaining trailing run
is collapsed and trimmed away — so all inter-word spaces are removed and
adjacent words are concatenated. -/
theorem c10_theorem (s : String) :
    cleanPdfText s = ⟨s.data.filter (fun c => !jsWhitespace c)⟩ ∧
    ∀ c ∈ (cleanPdfText s).data, jsWhitespace c = false := by
  have ha : ∀ c ∈ s.data.filter (fun c => !jsWhitespace c), jsWhitespace c = false := by
    intro c hc
    have h2 := (List.mem_filter.mp hc).2
    simpa using h2
  have hb := wsSuffix_all_ws s.data
  have hdata : trimChars (collapseWs (stripWsBeforeNonWs s.data)) =
      s.data.filter (fun c => !jsWhitespace c) := by
    rw [strip_eq_filter_append s.data]
    unfold collapseWs
    rw [collapse_aux_split _ ha _ hb]
    by_cases hbe : wsSuffix s.data = []
    · rw [if_pos hbe, List.append_nil]
      exact trimChars_of_nonws _ ha
    · rw [if_neg hbe]
      exact trimChars_nonws_space _ ha
  constructor
  · show (⟨trimChars (collapseWs (stripWsBeforeNonWs s.data))⟩ : String) = _
    rw [hdata]
  · intro c hc
    have hdc : (cleanPdfText s).data = s.data.filter (fun c => !jsWhitespace c) := hdata
    rw [hdc] at hc
    exact ha c hc

/-- Claim C10, witness. The theorem applied to a concrete string: every space
is removed and the words are concatenated. -/
theorem c10_witness :
    cleanPdfText " hello  world " =
      ⟨(" hello  world " : String).data.filter (fun c => !jsWhitespace c)⟩ ∧
    cleanPdfText " hello  world " = "helloworld" := by
  refine ⟨( c10_theorem " hello  world ").1, ?_⟩
  rw [( c10_theorem " hello  world ").1]
  decide

end AIJobReviewer
